import Mathlib

/-!
Shallow embedding of the Cdaprod/registry-service core in Lean 4.

The Go map `map[string]V` is modelled as an association list
`List (String × V)`; `mapGet`, `mapSet` and `mapDelete` act on the first
occurrence of a key, which coincides with Go map semantics on every state
whose keys are duplicate-free (the only states the Go program can reach).
`time.Now()` is modelled by passing the current clock value explicitly, and
`uuid.New().String()` by passing the generated identifier explicitly.
Functions returning `(T, error)` are modelled as returning
`Except String T`, paired with the post-state where the receiver is mutated.
-/

/-- Read the value stored under a key (Go map read, first occurrence). -/
def mapGet {α : Type} (l : List (String × α)) (k : String) : Option α :=
  match l with
  | [] => none
  | (k', v) :: rest => if k' = k then some v else mapGet rest k

/-- Store a value under a key (Go map assignment): replace the first
occurrence, or append when the key is absent. -/
def mapSet {α : Type} (l : List (String × α)) (k : String) (v : α) :
    List (String × α) :=
  match l with
  | [] => [(k, v)]
  | (k', v') :: rest =>
    if k' = k then (k, v) :: rest else (k', v') :: mapSet rest k v

/-- Remove a key (Go builtin `delete`): drop the first occurrence. -/
def mapDelete {α : Type} (l : List (String × α)) (k : String) :
    List (String × α) :=
  match l with
  | [] => []
  | (k', v') :: rest =>
    if k' = k then rest else (k', v') :: mapDelete rest k

/-- The keys of an association-list map, in order. -/
def mapKeys {α : Type} (l : List (String × α)) : List String :=
  l.map Prod.fst

/-- Model of `registry.Item` (internal/registry/item.go): the stored record.
`metadata` values are modelled as strings, `version` is the `int64`
counter, the timestamps are abstract clock readings. -/
structure Item where
  id : String
  type : String
  name : String
  metadata : List (String × String)
  createdAt : Nat
  updatedAt : Nat
  version : Int
  deleted : Bool
deriving Repr, DecidableEq

/-- Model of `Item.GetID` (item.go). -/
def Item.getID (i : Item) : String := i.id

/-- Model of `Item.GetType` (item.go). -/
def Item.getType (i : Item) : String := i.type

/-- Model of `Item.Update` (item.go): replace name, type and metadata, increment
version, refresh `UpdatedAt`. -/
def Item.update (i : Item) (name ty : String) (metadata : List (String × String))
    (now : Nat) : Item :=
  { i with name := name, type := ty, metadata := metadata,
           version := i.version + 1, updatedAt := now }

/-- Model of `Item.IsDeleted` (item.go). -/
def Item.isDeleted (i : Item) : Bool := i.deleted

/-- Model of `Item.SoftDelete` (item.go): mark deleted, refresh `UpdatedAt`. -/
def Item.softDelete (i : Item) (now : Nat) : Item :=
  { i with deleted := true, updatedAt := now }

/-- Model of `Item.Restore` (item.go): clear the deleted mark, refresh `UpdatedAt`. -/
def Item.restore (i : Item) (now : Nat) : Item :=
  { i with deleted := false, updatedAt := now }

/-- The `registry.Registerable` interface (registry.go): identity and type
accessors. -/
class Registerable (α : Type) where
  getID : α → String
  getType : α → String

instance : Registerable Item := ⟨Item.getID, Item.getType⟩

/-- Model of `registry.CentralRegistry` (registry.go): a map from identity to the
registered value, polymorphic over the `Registerable` interface. -/
structure CentralRegistry (α : Type) where
  items : List (String × α)
deriving Repr, DecidableEq

/-- Model of `NewCentralRegistry` (registry.go). -/
def CentralRegistry.empty (α : Type) : CentralRegistry α := ⟨[]⟩

/-- Model of `CentralRegistry.Register` (registry.go, lines 37-45): error when the
identity already holds an entry, otherwise store the item under its
identity. -/
def CentralRegistry.register {α : Type} [Registerable α]
    (r : CentralRegistry α) (item : α) :
    Except String Unit × CentralRegistry α :=
  match mapGet r.items (Registerable.getID item) with
  | some _ =>
    (Except.error ("item already registered: " ++ Registerable.getID item), r)
  | none =>
    (Except.ok (), ⟨mapSet r.items (Registerable.getID item) item⟩)

/-- Model of `CentralRegistry.Get` (registry.go, lines 47-52): raw map lookup,
`(item, exists)` modelled as an option. -/
def CentralRegistry.get {α : Type} (r : CentralRegistry α) (id : String) :
    Option α :=
  mapGet r.items id

/-- Model of `CentralRegistry.Unregister` (registry.go, lines 54-62): error when the
identity is absent, otherwise remove the map slot with `delete`. -/
def CentralRegistry.unregister {α : Type} (r : CentralRegistry α)
    (id : String) : Except String Unit × CentralRegistry α :=
  match mapGet r.items id with
  | none => (Except.error ("item not found: " ++ id), r)
  | some _ => (Except.ok (), ⟨mapDelete r.items id⟩)

/-- Model of `CentralRegistry.List` (registry.go): every stored value. -/
def CentralRegistry.list {α : Type} (r : CentralRegistry α) : List α :=
  r.items.map Prod.snd

/-- Model of `CentralRegistry.ListByType` (registry.go): stored values whose type
accessor matches. -/
def CentralRegistry.listByType {α : Type} [Registerable α]
    (r : CentralRegistry α) (ty : String) : List α :=
  (r.items.map Prod.snd).filter fun x => Registerable.getType x == ty

/-- Model of `registry.ItemStore` (item.go, lines 69-80). -/
structure ItemStore where
  items : List (String × Item)
deriving Repr, DecidableEq

/-- Model of `ItemStore.UpsertItem` (item.go, lines 83-107): an empty incoming id is
replaced by a generated one with `version = 1`; an existing id keeps the
stored item unless the incoming version is strictly newer, in which case
the incoming item replaces it, inheriting the original `CreatedAt`.
`freshId` stands for `uuid.New().String()` and `now` for `time.Now()`. -/
def ItemStore.upsertItem (s : ItemStore) (item : Item) (freshId : String)
    (now : Nat) : Item × ItemStore :=
  if item.id = "" then
    let it : Item :=
      { item with id := freshId, createdAt := now, version := 1, updatedAt := now }
    (it, ⟨mapSet s.items freshId it⟩)
  else
    match mapGet s.items item.id with
    | some existing =>
      if item.version ≤ existing.version then
        (existing, s)
      else
        let it : Item := { item with createdAt := existing.createdAt, updatedAt := now }
        (it, ⟨mapSet s.items item.id it⟩)
    | none =>
      let it : Item := { item with createdAt := now, updatedAt := now }
      (it, ⟨mapSet s.items item.id it⟩)

/-- Model of `storage.MemoryStorage` (internal/storage/memory.go): the in-memory
map from id to `Item`. -/
structure MemoryStorage where
  items : List (String × Item)
deriving Repr, DecidableEq

/-- Model of `MemoryStorage.List` without arguments (memory.go, lines 55-67): all
non-deleted items, in map-iteration order. -/
def MemoryStorage.list (ms : MemoryStorage) : List Item :=
  (ms.items.map Prod.snd).filter fun it => !it.isDeleted

/-- Model of `MemoryStorage.ListItems` (memory.go, lines 144-156): the same values
with an always-nil error. -/
def MemoryStorage.listItems (ms : MemoryStorage) : Except String (List Item) :=
  Except.ok ((ms.items.map Prod.snd).filter fun it => !it.isDeleted)

/-- Model of `MemoryStorage.GetItem` = `MemoryStorage.Get` (memory.go, lines 38-52
and 189-204): not-found when the key is absent, an "item is deleted" error
when the stored item is soft-deleted, the item otherwise. -/
def MemoryStorage.getItem (ms : MemoryStorage) (id : String) :
    Except String Item :=
  match mapGet ms.items id with
  | none => Except.error "item not found"
  | some it =>
    if it.isDeleted then Except.error "item is deleted" else Except.ok it

/-- Model of `MemoryStorage.CreateItem` (memory.go, lines 159-170): error when the
key is already present in the map (deleted or not); otherwise force the
version to 1 and insert. -/
def MemoryStorage.createItem (ms : MemoryStorage) (item : Item) :
    Except String Item × MemoryStorage :=
  match mapGet ms.items item.id with
  | some _ => (Except.error "item already exists", ms)
  | none =>
    let it : Item := { item with version := 1 }
    (Except.ok it, ⟨mapSet ms.items item.id it⟩)

/-- Model of `MemoryStorage.UpdateItem` (memory.go, lines 207-222): not-found when
the key is absent from the map; otherwise replace name and metadata and
increment the version in place (the deleted flag is not consulted). -/
def MemoryStorage.updateItem (ms : MemoryStorage) (item : Item) :
    Except String Item × MemoryStorage :=
  match mapGet ms.items item.id with
  | none => (Except.error "item not found", ms)
  | some existing =>
    let it : Item :=
      { existing with name := item.name, metadata := item.metadata,
                      version := existing.version + 1 }
    (Except.ok it, ⟨mapSet ms.items item.id it⟩)

/-- Model of `MemoryStorage.DeleteItem` = `MemoryStorage.Delete` (memory.go, lines
70-81 and 225-236): not-found when the key is absent; otherwise mark the
stored item soft-deleted. -/
def MemoryStorage.deleteItem (ms : MemoryStorage) (id : String) (now : Nat) :
    Except String Unit × MemoryStorage :=
  match mapGet ms.items id with
  | none => (Except.error "item not found", ms)
  | some it => (Except.ok (), ⟨mapSet ms.items id (it.softDelete now)⟩)

/-- Model of `MemoryStorage.Restore` (memory.go, lines 84-95), the store-level
restore also exposed as `ItemStore.RestoreItem` (item.go, lines 139-148):
not-found when the key is absent; otherwise clear the deleted mark. -/
def MemoryStorage.restore (ms : MemoryStorage) (id : String) (now : Nat) :
    Except String Unit × MemoryStorage :=
  match mapGet ms.items id with
  | none => (Except.error "item not found", ms)
  | some it => (Except.ok (), ⟨mapSet ms.items id (it.restore now)⟩)

/-- Two's-complement wrap of an unbounded integer into the signed 64-bit
range [-9223372036854775808, 9223372036854775807], modelling the silent
overflow of Go `int` arithmetic on a 64-bit build (the Dockerfile
targets one); 9223372036854775808 is 2 to the 63rd power and
18446744073709551616 is 2 to the 64th. -/
def wrap64 (n : Int) : Int :=
  (n + 9223372036854775808) % 18446744073709551616 - 9223372036854775808

/-- Model of `MemoryStorage.List` with pagination (memory.go, lines 119-141,
called `ListPaginated` at its call sites and in the spec): collect the
non-deleted items, return empty when `offset` exceeds their count,
compute `end := offset + limit` in Go `int` arithmetic — which wraps on
64-bit overflow, hence the `wrap64` — clamp the end index to the count,
then take the Go slice `result[offset:end]`. A slice expression whose
bounds fall outside `0 ≤ offset ≤ end` panics in Go; the panic is
modelled as `none`. -/
def MemoryStorage.listPaginated (ms : MemoryStorage) (limit offset : Int) :
    Option (List Item) :=
  let result := (ms.items.map Prod.snd).filter fun it => !it.isDeleted
  if offset > (result.length : Int) then some []
  else
    let stop := wrap64 (offset + limit)
    let stop2 := if stop > (result.length : Int) then (result.length : Int) else stop
    if 0 ≤ offset ∧ offset ≤ stop2 then
      some ((result.drop offset.toNat).take (stop2 - offset).toNat)
    else
      none

/-- Model of `storage.MemoryStorageAdapter.List` (memory_adapter.go): unwrap
`ListItems`, ignoring its (always nil) error. -/
def MemoryStorageAdapter.list (ms : MemoryStorage) : List Item :=
  match MemoryStorage.listItems ms with
  | Except.ok l => l
  | Except.error _ => []

/-- Model of `storage.MemoryStorageAdapter.ListByType` (memory_adapter.go): filter
the adapter list by the type accessor. -/
def MemoryStorageAdapter.listByType (ms : MemoryStorage) (ty : String) :
    List Item :=
  (MemoryStorageAdapter.list ms).filter fun it => it.getType == ty

/-- Model of `storage.MemoryStorageAdapter.Get` (memory_adapter.go): the
`(Registerable, bool)` view of `GetItem`. -/
def MemoryStorageAdapter.get (ms : MemoryStorage) (id : String) : Option Item :=
  match MemoryStorage.getItem ms id with
  | Except.ok it => some it
  | Except.error _ => none

/-- Duplicate-free keys, and every stored item is keyed by its own id:
both hold in every state the Go program can reach, the first because the
store is a Go map, the second because every insertion uses `item.ID` as
the key. -/
def StoreWF (ms : MemoryStorage) : Prop :=
  (mapKeys ms.items).Nodup ∧ ∀ p ∈ ms.items, (Prod.snd p).id = Prod.fst p

instance (ms : MemoryStorage) : Decidable (StoreWF ms) := by
  unfold StoreWF; infer_instance

/-- Model of `BuiltinAPI` as used by the bundled plugin hooks (its struct
declaration is not among the sources; the fields are read off the
composite literals in plugins.go, git.go and the Docker plugin, and it
satisfies `Registerable`). -/
structure BuiltinAPI where
  id : String
  type : String
  name : String
deriving Repr, DecidableEq

instance : Registerable BuiltinAPI := ⟨BuiltinAPI.id, BuiltinAPI.type⟩

/-- Model of `filepath.Ext`: the suffix of the path starting at the final dot of
its final element, empty when that element has no dot. -/
def extRev : List Char → List Char → Option String
  | [], _ => none
  | c :: rest, acc =>
    if c = '/' then none
    else if c = '.' then some (String.mk ('.' :: acc))
    else extRev rest (c :: acc)

/-- Model of `filepath.Ext` over the whole path string. -/
def filepathExt (path : String) : String :=
  (extRev path.toList.reverse []).getD ""

/-- A module file as the Loader observes it: whether `plugin.Open`
succeeds, whether looking up the `Register` symbol succeeds, whether the
symbol matches `func(registry.Registry) error`, and the entries its hook
registers. The load-time observations are modelled as fields because the
dynamic linker is outside the sources; the hook behaviour follows the
bundled GitPlugin / APIPlugin / DockerPlugin hooks, which call
`reg.Register` on their entries and fail exactly when a `Register` call
fails. -/
structure ModuleFile where
  path : String
  opens : Bool
  hasRegister : Bool
  goodSignature : Bool
  registrations : List BuiltinAPI
deriving Repr, DecidableEq

/-- The registration hook of a module, in the shape of the bundled
plugins (git.go, plugins.go, the Docker plugin): register each entry,
returning the wrapped error of the first `Register` call that fails. -/
def runHook (reg : CentralRegistry BuiltinAPI) :
    List BuiltinAPI → CentralRegistry BuiltinAPI × Option String
  | [] => (reg, none)
  | a :: rest =>
    match CentralRegistry.register reg a with
    | (Except.ok _, reg') => runHook reg' rest
    | (Except.error e, reg') => (reg', some ("failed to register plugin: " ++ e))

/-- The body of the `filepath.Walk` callback shared by
`PluginLoader.LoadAll` (pkg/plugins/plugins.go, lines 27-63) and
`BuiltinLoader.LoadAll` (pkg/builtins/builtins.go, lines 26-58): skip
files whose extension is not `.so`, and return an error as soon as the
file fails to open, lacks the `Register` symbol, has a symbol of the
wrong signature, or its hook fails. -/
def processFile (reg : CentralRegistry BuiltinAPI) (f : ModuleFile) :
    CentralRegistry BuiltinAPI × Option String :=
  if filepathExt f.path ≠ ".so" then (reg, none)
  else if !f.opens then (reg, some "failed to open plugin")
  else if !f.hasRegister then
    (reg, some ("failed to find Register function in " ++ f.path))
  else if !f.goodSignature then
    (reg, some ("invalid Register function signature in plugin: " ++ f.path))
  else runHook reg f.registrations

/-- Model of `LoadAll` (plugins.go / builtins.go): `filepath.Walk` over the module
files in discovery order. A non-nil error returned by the callback makes
`filepath.Walk` stop and return that error, so the walk ends at the first
failing file; registrations already performed persist because the
registry is shared. -/
def loadAll (reg : CentralRegistry BuiltinAPI) :
    List ModuleFile → CentralRegistry BuiltinAPI × Option String
  | [] => (reg, none)
  | f :: fs =>
    match processFile reg f with
    | (reg', none) => loadAll reg' fs
    | (reg', some e) => (reg', some e)


deriving instance DecidableEq for Except

/-! Helper lemmas about the association-list map model. -/

/-- Reading back the key just written returns the written value. -/
theorem mapGet_mapSet_self {α : Type} (l : List (String × α)) (k : String)
    (v : α) : mapGet (mapSet l k v) k = some v := by
  induction l with
  | nil => simp [mapSet, mapGet]
  | cons p rest ih =>
    obtain ⟨k', v'⟩ := p
    by_cases h : k' = k
    · simp [mapSet, h, mapGet]
    · simp [mapSet, h, mapGet, ih]

/-- The written pair is a member of the updated map. -/
theorem mem_mapSet_self {α : Type} (l : List (String × α)) (k : String)
    (v : α) : (k, v) ∈ mapSet l k v := by
  induction l with
  | nil => simp [mapSet]
  | cons p rest ih =>
    obtain ⟨k', v'⟩ := p
    by_cases h : k' = k
    · simp [mapSet, h]
    · simp only [mapSet, if_neg h, List.mem_cons]
      exact Or.inr ih

/-- On a duplicate-free map, a member of the updated map is either the
written pair or an untouched pair under a different key. -/
theorem mem_mapSet_elim {α : Type} {l : List (String × α)} {k : String}
    {v : α} {p : String × α} (hnd : (mapKeys l).Nodup)
    (hp : p ∈ mapSet l k v) : p = (k, v) ∨ (p ∈ l ∧ p.1 ≠ k) := by
  induction l with
  | nil =>
    simp [mapSet] at hp
    exact Or.inl hp
  | cons q rest ih =>
    obtain ⟨k', v'⟩ := q
    simp only [mapKeys, List.map_cons, List.nodup_cons] at hnd
    by_cases h : k' = k
    · subst h
      simp [mapSet] at hp
      rcases hp with h1 | h2
      · exact Or.inl h1
      · refine Or.inr ⟨List.mem_cons_of_mem _ h2, ?_⟩
        intro hk
        exact hnd.1 (hk ▸ (List.mem_map.mpr ⟨p, h2, rfl⟩))
    · simp [mapSet, h] at hp
      rcases hp with h1 | h2
      · exact Or.inr ⟨List.mem_cons.mpr (Or.inl h1), by rw [h1]; exact h⟩
      · rcases ih hnd.2 h2 with h3 | ⟨h4, h5⟩
        · exact Or.inl h3
        · exact Or.inr ⟨List.mem_cons_of_mem _ h4, h5⟩

/-- Writing to the map never loses a key. -/
theorem mapKeys_mapSet_sublist {α : Type} (l : List (String × α))
    (k : String) (v : α) : List.Sublist (mapKeys l) (mapKeys (mapSet l k v)) := by
  induction l with
  | nil => simp [mapSet, mapKeys]
  | cons p rest ih =>
    obtain ⟨k', v'⟩ := p
    by_cases h : k' = k
    · subst h
      simp [mapSet, mapKeys]
    · simp only [mapSet, if_neg h, mapKeys, List.map_cons]
      exact List.Sublist.cons₂ _ ih

/-- Inside the signed 64-bit range the wrap is the identity. -/
theorem wrap64_eq_self (n : Int) (h1 : -9223372036854775808 ≤ n)
    (h2 : n < 9223372036854775808) : wrap64 n = n := by
  unfold wrap64
  rw [Int.emod_eq_of_lt (by omega) (by omega)]
  omega

/-- For nonnegative `limit` and `offset` whose sum stays inside int64,
the paginated list is exactly `take limit` of `drop offset` of the
non-deleted items, and no panic occurs. -/
theorem listPaginated_eq_drop_take (ms : MemoryStorage) (limit offset : Int)
    (h1 : 0 ≤ limit) (h2 : 0 ≤ offset)
    (h3 : offset + limit < 9223372036854775808) :
    MemoryStorage.listPaginated ms limit offset =
      some (((MemoryStorage.list ms).drop offset.toNat).take limit.toNat) := by
  unfold MemoryStorage.listPaginated MemoryStorage.list
  rw [wrap64_eq_self (offset + limit) (by omega) h3]
  set R := (ms.items.map Prod.snd).filter (fun it => !it.isDeleted) with hR
  by_cases hoff : ((R.length : Int) < offset)
  · rw [if_pos hoff]
    have hd : R.drop offset.toNat = [] := List.drop_eq_nil_of_le (by omega)
    rw [hd, List.take_nil]
  · rw [if_neg hoff]
    have hlen : offset ≤ (R.length : Int) := not_lt.mp hoff
    have hs2 : offset ≤ (if offset + limit > (R.length : Int)
        then (R.length : Int) else offset + limit) := by
      split <;> omega
    rw [if_pos ⟨h2, hs2⟩]
    congr 1
    rcases le_or_lt (offset + limit) (R.length : Int) with hc | hc
    · have he : (if offset + limit > (R.length : Int)
          then (R.length : Int) else offset + limit) = offset + limit :=
        if_neg (not_lt.mpr hc)
      rw [he]
      congr 1
      omega
    · have he : (if offset + limit > (R.length : Int)
          then (R.length : Int) else offset + limit) = (R.length : Int) :=
        if_pos hc
      rw [he]
      have harg : ((R.length : Int) - offset).toNat = R.length - offset.toNat := by
        omega
      rw [harg]
      rw [List.take_of_length_le (by rw [List.length_drop]),
          List.take_of_length_le (by rw [List.length_drop]; omega)]

/-! Claim theorems. -/

/-- C1, counterexample: Register is not an upsert. Registering the
identity `git` a second time (with a new name) is rejected with an
already-registered error instead of replacing the fields and bumping the
version; and `UpsertItem` of a not-yet-present item with a non-empty id
stores the caller-supplied version (here 0), not `version = 1`. -/
theorem register_not_upsert_cex :
    (CentralRegistry.register
        (CentralRegistry.register (CentralRegistry.empty BuiltinAPI)
          ⟨"git", "API", "Git API"⟩).2
        ⟨"git", "API", "Git API v2"⟩).1 =
      Except.error "item already registered: git" ∧
    ((ItemStore.upsertItem ⟨[]⟩ ⟨"x", "T", "n", [], 0, 0, 0, false⟩
        "f1" 5).1).version = 0 :=
  ⟨rfl, rfl⟩

/-- C1, amended: `CentralRegistry.Register` is strict-create: after a
successful Register, a second Register on the same identity fails with an
already-registered error and leaves the registry unchanged.
`ItemStore.UpsertItem` never increments a version itself: with an empty
incoming id it generates an id and sets `version = 1`; with a non-empty id
it keeps the stored item untouched when the incoming version is not newer,
and otherwise stores the incoming item with its caller-supplied version. -/
theorem register_upsert_semantics_amended :
    (∀ (α : Type) [inst : Registerable α] (r : CentralRegistry α) (x y : α),
      Registerable.getID y = Registerable.getID x →
      (CentralRegistry.register r x).1 = Except.ok () →
      CentralRegistry.register (CentralRegistry.register r x).2 y =
        (Except.error ("item already registered: " ++ Registerable.getID y),
          (CentralRegistry.register r x).2)) ∧
    (∀ (s : ItemStore) (item ex : Item) (freshId : String) (now : Nat),
      item.id ≠ "" → mapGet s.items item.id = some ex →
      item.version ≤ ex.version →
      ItemStore.upsertItem s item freshId now = (ex, s)) ∧
    (∀ (s : ItemStore) (item : Item) (freshId : String) (now : Nat),
      item.id ≠ "" → mapGet s.items item.id = none →
      ((ItemStore.upsertItem s item freshId now).1).version = item.version) ∧
    (∀ (s : ItemStore) (item : Item) (freshId : String) (now : Nat),
      item.id = "" →
      ((ItemStore.upsertItem s item freshId now).1).version = 1) := by
  refine ⟨?_, ?_, ?_, ?_⟩
  · intro α inst r x y hid hok
    rcases hm : mapGet r.items (Registerable.getID x) with _ | w
    · simp only [CentralRegistry.register, hm]
      simp only [CentralRegistry.register, hid, mapGet_mapSet_self]
    · simp [CentralRegistry.register, hm] at hok
  · intro s item ex freshId now hne hm hv
    simp [ItemStore.upsertItem, hne, hm, hv]
  · intro s item freshId now hne hm
    simp [ItemStore.upsertItem, hne, hm]
  · intro s item freshId now hemp
    simp [ItemStore.upsertItem, hemp]

/-- C1, witness for the amended theorem at the concrete `git` scenario. -/
theorem register_upsert_semantics_amended_witness :
    Registerable.getID (⟨"git", "API", "Git API v2"⟩ : BuiltinAPI) =
      Registerable.getID (⟨"git", "API", "Git API"⟩ : BuiltinAPI) ∧
    (CentralRegistry.register (CentralRegistry.empty BuiltinAPI)
      ⟨"git", "API", "Git API"⟩).1 = Except.ok () ∧
    CentralRegistry.register
        (CentralRegistry.register (CentralRegistry.empty BuiltinAPI)
          ⟨"git", "API", "Git API"⟩).2
        ⟨"git", "API", "Git API v2"⟩ =
      (Except.error ("item already registered: " ++
          Registerable.getID (⟨"git", "API", "Git API v2"⟩ : BuiltinAPI)),
        (CentralRegistry.register (CentralRegistry.empty BuiltinAPI)
          ⟨"git", "API", "Git API"⟩).2) :=
  ⟨by decide, by decide,
    register_upsert_semantics_amended.1 BuiltinAPI _ _ _ (by decide) (by decide)⟩

/-- C4, counterexample: a capability whose identity accessor returns the
empty string is accepted by Register, stored under the empty-string key;
no InvalidArgument error is raised and the store does change. -/
theorem register_accepts_empty_id_cex :
    CentralRegistry.register (CentralRegistry.empty BuiltinAPI)
        ⟨"", "API", "X"⟩ =
      (Except.ok (), ⟨[("", ⟨"", "API", "X"⟩)]⟩) :=
  rfl

/-- C4, amended: there is no empty-identity validation. A registration
whose identity accessor returns the empty string succeeds:
`CentralRegistry.Register` stores it under the empty-string key (whenever
that key is free), and `ItemStore.UpsertItem` silently replaces an empty
id with a generated one and version 1. -/
theorem register_no_empty_id_check_amended :
    (∀ (α : Type) [inst : Registerable α] (r : CentralRegistry α) (x : α),
      Registerable.getID x = "" → mapGet r.items "" = none →
      CentralRegistry.register r x = (Except.ok (), ⟨mapSet r.items "" x⟩)) ∧
    (∀ (s : ItemStore) (item : Item) (freshId : String) (now : Nat),
      item.id = "" →
      ((ItemStore.upsertItem s item freshId now).1).id = freshId ∧
      ((ItemStore.upsertItem s item freshId now).1).version = 1) := by
  constructor
  · intro α inst r x hid hm
    simp [CentralRegistry.register, hid, hm]
  · intro s item freshId now hemp
    constructor <;> simp [ItemStore.upsertItem, hemp]

/-- C4, witness for the amended theorem at a concrete empty-identity
registration and upsert. -/
theorem register_no_empty_id_check_amended_witness :
    Registerable.getID (⟨"", "API", "X"⟩ : BuiltinAPI) = "" ∧
    mapGet (CentralRegistry.empty BuiltinAPI).items "" = none ∧
    CentralRegistry.register (CentralRegistry.empty BuiltinAPI)
        ⟨"", "API", "X"⟩ =
      (Except.ok (),
        ⟨mapSet (CentralRegistry.empty BuiltinAPI).items "" ⟨"", "API", "X"⟩⟩) ∧
    ((ItemStore.upsertItem ⟨[]⟩ ⟨"", "T", "n", [], 0, 0, 0, false⟩
        "gen-1" 7).1).id = "gen-1" :=
  ⟨by decide, by decide,
    register_no_empty_id_check_amended.1 BuiltinAPI _ _ (by decide) (by decide),
    (register_no_empty_id_check_amended.2 ⟨[]⟩
      ⟨"", "T", "n", [], 0, 0, 0, false⟩ "gen-1" 7 (by decide)).1⟩

/-- C5, counterexample: `CentralRegistry.Unregister` physically removes
the map slot. After registering identity `a` the map has one key; after
Unregister the map is empty, so the key set shrank and no tombstone is
left. -/
theorem unregister_removes_slot_cex :
    ((CentralRegistry.register (CentralRegistry.empty BuiltinAPI)
        ⟨"a", "T", "n"⟩).2).items = [("a", ⟨"a", "T", "n"⟩)] ∧
    ((CentralRegistry.unregister
        (CentralRegistry.register (CentralRegistry.empty BuiltinAPI)
          ⟨"a", "T", "n"⟩).2 "a").2).items = [] :=
  ⟨rfl, rfl⟩

/-- C5, amended: the MemoryStorage operations (CreateItem, UpdateItem,
DeleteItem, Restore; the reads do not mutate) never lose a key of the
underlying map, and DeleteItem only marks the entry deleted in place. The
claim fails for `CentralRegistry.Unregister`, which deletes the map slot
outright. -/
theorem memoryStorage_keys_never_shrink_amended :
    (∀ (ms : MemoryStorage) (item : Item),
      List.Sublist (mapKeys ms.items)
        (mapKeys ((MemoryStorage.createItem ms item).2).items)) ∧
    (∀ (ms : MemoryStorage) (item : Item),
      List.Sublist (mapKeys ms.items)
        (mapKeys ((MemoryStorage.updateItem ms item).2).items)) ∧
    (∀ (ms : MemoryStorage) (id : String) (now : Nat),
      List.Sublist (mapKeys ms.items)
        (mapKeys ((MemoryStorage.deleteItem ms id now).2).items)) ∧
    (∀ (ms : MemoryStorage) (id : String) (now : Nat),
      List.Sublist (mapKeys ms.items)
        (mapKeys ((MemoryStorage.restore ms id now).2).items)) ∧
    (∀ (ms : MemoryStorage) (id : String) (now : Nat) (it : Item),
      mapGet ms.items id = some it →
      mapGet ((MemoryStorage.deleteItem ms id now).2).items id =
        some (Item.softDelete it now)) := by
  refine ⟨?_, ?_, ?_, ?_, ?_⟩
  · intro ms item
    rcases hm : mapGet ms.items item.id with _ | w
    · simp only [MemoryStorage.createItem, hm]
      exact mapKeys_mapSet_sublist _ _ _
    · simp only [MemoryStorage.createItem, hm]
      exact List.Sublist.refl _
  · intro ms item
    rcases hm : mapGet ms.items item.id with _ | w
    · simp only [MemoryStorage.updateItem, hm]
      exact List.Sublist.refl _
    · simp only [MemoryStorage.updateItem, hm]
      exact mapKeys_mapSet_sublist _ _ _
  · intro ms id now
    rcases hm : mapGet ms.items id with _ | w
    · simp only [MemoryStorage.deleteItem, hm]
      exact List.Sublist.refl _
    · simp only [MemoryStorage.deleteItem, hm]
      exact mapKeys_mapSet_sublist _ _ _
  · intro ms id now
    rcases hm : mapGet ms.items id with _ | w
    · simp only [MemoryStorage.restore, hm]
      exact List.Sublist.refl _
    · simp only [MemoryStorage.restore, hm]
      exact mapKeys_mapSet_sublist _ _ _
  · intro ms id now it hm
    simp only [MemoryStorage.deleteItem, hm]
    exact mapGet_mapSet_self _ _ _

/-- C5, witness for the amended theorem: DeleteItem on a concrete store
keeps the slot, now holding the tombstone. -/
theorem memoryStorage_keys_never_shrink_amended_witness :
    mapGet (⟨[("a", ⟨"a", "T", "n", [], 0, 0, 1, false⟩)]⟩ :
        MemoryStorage).items "a" = some ⟨"a", "T", "n", [], 0, 0, 1, false⟩ ∧
    mapGet ((MemoryStorage.deleteItem
        ⟨[("a", ⟨"a", "T", "n", [], 0, 0, 1, false⟩)]⟩ "a" 4).2).items "a" =
      some (Item.softDelete ⟨"a", "T", "n", [], 0, 0, 1, false⟩ 4) :=
  ⟨by decide,
    memoryStorage_keys_never_shrink_amended.2.2.2.2
      ⟨[("a", ⟨"a", "T", "n", [], 0, 0, 1, false⟩)]⟩ "a" 4 _ (by decide)⟩

/-- C2, confirmed: soft-delete visibility on the MemoryStorage path. For
an id present in the store (of a well-formed state), DeleteItem succeeds;
afterwards GetItem reports the entry deleted, no element of List or of the
adapter ListByType carries that id, yet the map slot still holds the
tombstone and Restore succeeds. -/
theorem soft_delete_visibility (ms : MemoryStorage) (id : String) (it : Item)
    (ty : String) (now now' : Nat) (hwf : StoreWF ms)
    (hget : mapGet ms.items id = some it) :
    (MemoryStorage.deleteItem ms id now).1 = Except.ok () ∧
    MemoryStorage.getItem (MemoryStorage.deleteItem ms id now).2 id =
      Except.error "item is deleted" ∧
    (∀ x ∈ MemoryStorage.list (MemoryStorage.deleteItem ms id now).2,
      x.id ≠ id) ∧
    (∀ x ∈ MemoryStorageAdapter.listByType
        (MemoryStorage.deleteItem ms id now).2 ty, x.id ≠ id) ∧
    mapGet ((MemoryStorage.deleteItem ms id now).2).items id =
      some (Item.softDelete it now) ∧
    (MemoryStorage.restore (MemoryStorage.deleteItem ms id now).2 id now').1 =
      Except.ok () := by
  have hdel : MemoryStorage.deleteItem ms id now =
      (Except.ok (), ⟨mapSet ms.items id (it.softDelete now)⟩) := by
    simp only [MemoryStorage.deleteItem, hget]
  rw [hdel]
  have habs : ∀ x ∈ ((mapSet ms.items id (it.softDelete now)).map
      Prod.snd).filter (fun x => !x.isDeleted), x.id ≠ id := by
    intro x hx
    simp only [List.mem_filter, List.mem_map] at hx
    obtain ⟨⟨p, hp, hpx⟩, hxdel⟩ := hx
    rcases mem_mapSet_elim hwf.1 hp with h1 | ⟨h2, h3⟩
    · rw [h1] at hpx
      rw [← hpx] at hxdel
      simp [Item.isDeleted, Item.softDelete] at hxdel
    · intro hxid
      have hk := hwf.2 p h2
      rw [← hpx, hk] at hxid
      exact h3 hxid
  refine ⟨rfl, ?_, ?_, ?_, ?_, ?_⟩
  · simp only [MemoryStorage.getItem, mapGet_mapSet_self]
    simp [Item.softDelete, Item.isDeleted]
  · exact habs
  · intro x hx
    refine habs x ?_
    simp only [MemoryStorageAdapter.listByType, MemoryStorageAdapter.list,
      MemoryStorage.listItems, List.mem_filter] at hx
    exact List.mem_filter.mpr hx.1
  · exact mapGet_mapSet_self _ _ _
  · simp only [MemoryStorage.restore, mapGet_mapSet_self]

/-- C2, witness: the visibility facts at a concrete one-item store. -/
theorem soft_delete_visibility_witness :
    StoreWF ⟨[("a", ⟨"a", "T", "n", [], 0, 0, 1, false⟩)]⟩ ∧
    mapGet (⟨[("a", ⟨"a", "T", "n", [], 0, 0, 1, false⟩)]⟩ :
        MemoryStorage).items "a" = some ⟨"a", "T", "n", [], 0, 0, 1, false⟩ ∧
    MemoryStorage.getItem
        (MemoryStorage.deleteItem
          ⟨[("a", ⟨"a", "T", "n", [], 0, 0, 1, false⟩)]⟩ "a" 3).2 "a" =
      Except.error "item is deleted" ∧
    (MemoryStorage.restore
        (MemoryStorage.deleteItem
          ⟨[("a", ⟨"a", "T", "n", [], 0, 0, 1, false⟩)]⟩ "a" 3).2 "a" 4).1 =
      Except.ok () :=
  ⟨by decide, by decide,
    (soft_delete_visibility ⟨[("a", ⟨"a", "T", "n", [], 0, 0, 1, false⟩)]⟩
      "a" ⟨"a", "T", "n", [], 0, 0, 1, false⟩ "T" 3 4
      (by decide) (by decide)).2.1,
    (soft_delete_visibility ⟨[("a", ⟨"a", "T", "n", [], 0, 0, 1, false⟩)]⟩
      "a" ⟨"a", "T", "n", [], 0, 0, 1, false⟩ "T" 3 4
      (by decide) (by decide)).2.2.2.2.2⟩

/-- C8, confirmed: Restore after the soft delete makes the entry visible
again with exactly the version it had before the delete; only the deleted
flag and `updatedAt` change, and the restored entry is reported by
GetItem, List and the adapter ListByType. -/
theorem restore_round_trip (ms : MemoryStorage) (id : String) (it : Item)
    (n1 n2 : Nat) (hget : mapGet ms.items id = some it) :
    (MemoryStorage.deleteItem ms id n1).1 = Except.ok () ∧
    (MemoryStorage.restore (MemoryStorage.deleteItem ms id n1).2 id n2).1 =
      Except.ok () ∧
    MemoryStorage.getItem
        (MemoryStorage.restore
          (MemoryStorage.deleteItem ms id n1).2 id n2).2 id =
      Except.ok { it with deleted := false, updatedAt := n2 } ∧
    ({ it with deleted := false, updatedAt := n2 } : Item).version =
      it.version ∧
    { it with deleted := false, updatedAt := n2 } ∈
      MemoryStorage.list
        (MemoryStorage.restore
          (MemoryStorage.deleteItem ms id n1).2 id n2).2 ∧
    ({ it with deleted := false, updatedAt := n2 } : Item) ∈
      MemoryStorageAdapter.listByType
        (MemoryStorage.restore
          (MemoryStorage.deleteItem ms id n1).2 id n2).2 it.type := by
  have hdel : MemoryStorage.deleteItem ms id n1 =
      (Except.ok (), ⟨mapSet ms.items id (it.softDelete n1)⟩) := by
    simp only [MemoryStorage.deleteItem, hget]
  have hback : Item.restore (Item.softDelete it n1) n2 =
      { it with deleted := false, updatedAt := n2 } := rfl
  have hres : MemoryStorage.restore
      (⟨mapSet ms.items id (it.softDelete n1)⟩ : MemoryStorage) id n2 =
      (Except.ok (),
        ⟨mapSet (mapSet ms.items id (it.softDelete n1)) id
          { it with deleted := false, updatedAt := n2 }⟩) := by
    simp only [MemoryStorage.restore, mapGet_mapSet_self, hback]
  have hmem : ({ it with deleted := false, updatedAt := n2 } : Item) ∈
      ((mapSet (mapSet ms.items id (it.softDelete n1)) id
        { it with deleted := false, updatedAt := n2 }).map Prod.snd) :=
    List.mem_map.mpr ⟨(id, { it with deleted := false, updatedAt := n2 }),
      mem_mapSet_self _ _ _, rfl⟩
  rw [hdel, hres]
  refine ⟨rfl, rfl, ?_, rfl, ?_, ?_⟩
  · simp only [MemoryStorage.getItem, mapGet_mapSet_self]
    rfl
  · exact List.mem_filter.mpr ⟨hmem, rfl⟩
  · refine List.mem_filter.mpr ⟨List.mem_filter.mpr ⟨hmem, rfl⟩, ?_⟩
    simp [Item.getType]

/-- C8, witness: the round trip on a concrete one-item store, with the
version (2) unchanged across delete and restore. -/
theorem restore_round_trip_witness :
    mapGet (⟨[("a", ⟨"a", "T", "n", [], 0, 0, 2, false⟩)]⟩ :
        MemoryStorage).items "a" = some ⟨"a", "T", "n", [], 0, 0, 2, false⟩ ∧
    MemoryStorage.getItem
        (MemoryStorage.restore
          (MemoryStorage.deleteItem
            ⟨[("a", ⟨"a", "T", "n", [], 0, 0, 2, false⟩)]⟩ "a" 5).2 "a" 6).2
        "a" =
      Except.ok ⟨"a", "T", "n", [], 0, 6, 2, false⟩ :=
  ⟨by decide,
    (restore_round_trip ⟨[("a", ⟨"a", "T", "n", [], 0, 0, 2, false⟩)]⟩ "a"
      ⟨"a", "T", "n", [], 0, 0, 2, false⟩ 5 6 (by decide)).2.2.1⟩

/-- C9, confirmed: CreateItem fails with an already-exists error and
leaves the store unchanged for every id already present as a map key,
whether the stored entry is live or a soft-deleted tombstone; a tombstone
can only come back through Restore. -/
theorem createItem_rejects_existing_id (ms : MemoryStorage) (item ex : Item)
    (hget : mapGet ms.items item.id = some ex) :
    MemoryStorage.createItem ms item = (Except.error "item already exists", ms) := by
  simp only [MemoryStorage.createItem, hget]

/-- C9, witness: CreateItem against a concrete soft-deleted tombstone. -/
theorem createItem_rejects_existing_id_witness :
    mapGet (⟨[("a", ⟨"a", "T", "n", [], 0, 2, 1, true⟩)]⟩ :
        MemoryStorage).items
      (Item.id ⟨"a", "T", "n2", [], 0, 0, 0, false⟩) =
      some ⟨"a", "T", "n", [], 0, 2, 1, true⟩ ∧
    MemoryStorage.createItem ⟨[("a", ⟨"a", "T", "n", [], 0, 2, 1, true⟩)]⟩
        ⟨"a", "T", "n2", [], 0, 0, 0, false⟩ =
      (Except.error "item already exists",
        ⟨[("a", ⟨"a", "T", "n", [], 0, 2, 1, true⟩)]⟩) :=
  ⟨by decide,
    createItem_rejects_existing_id ⟨[("a", ⟨"a", "T", "n", [], 0, 2, 1, true⟩)]⟩
      ⟨"a", "T", "n2", [], 0, 0, 0, false⟩
      ⟨"a", "T", "n", [], 0, 2, 1, true⟩ (by decide)⟩

/-- C3, counterexample: LoadAll does not continue past a bad module. With
a directory holding `bad.so` (which lacks the `Register` symbol) followed
by `good.so` (a valid module registering the `api` entry), LoadAll stops
with an error and the valid module's registration never lands in the
catalog. -/
theorem loadAll_aborts_on_bad_module_cex :
    (loadAll (CentralRegistry.empty BuiltinAPI)
      [⟨"bad.so", true, false, true, []⟩,
       ⟨"good.so", true, true, true, [⟨"api", "API", "Generic API"⟩]⟩]).2.isSome
      = true ∧
    CentralRegistry.get
        (loadAll (CentralRegistry.empty BuiltinAPI)
          [⟨"bad.so", true, false, true, []⟩,
           ⟨"good.so", true, true, true, [⟨"api", "API", "Generic API"⟩]⟩]).1
        "api" = none :=
  ⟨by decide, by decide⟩

/-- C3, amended: LoadAll fails fast. The first module file that fails to
open, lacks the Register hook, has a hook of the wrong signature, or whose
hook errors makes the walk return that error immediately, so the files
after it are never processed; files whose extension is not `.so` are
skipped without effect. -/
theorem loadAll_fail_fast_amended :
    (∀ (reg reg' : CentralRegistry BuiltinAPI) (f : ModuleFile)
        (fs : List ModuleFile) (e : String),
      processFile reg f = (reg', some e) →
      loadAll reg (f :: fs) = (reg', some e)) ∧
    (∀ (reg : CentralRegistry BuiltinAPI) (f : ModuleFile)
        (fs : List ModuleFile),
      filepathExt f.path ≠ ".so" → loadAll reg (f :: fs) = loadAll reg fs) := by
  constructor
  · intro reg reg' f fs e h
    simp only [loadAll, h]
  · intro reg f fs h
    have hskip : processFile reg f = (reg, none) := by
      simp only [processFile, if_pos h]
    simp only [loadAll, hskip]

/-- C3, witness for the amended theorem: the concrete bad directory stops
at `bad.so` and reports its missing hook. -/
theorem loadAll_fail_fast_amended_witness :
    processFile (CentralRegistry.empty BuiltinAPI)
        ⟨"bad.so", true, false, true, []⟩ =
      (CentralRegistry.empty BuiltinAPI,
        some "failed to find Register function in bad.so") ∧
    loadAll (CentralRegistry.empty BuiltinAPI)
        [⟨"bad.so", true, false, true, []⟩,
         ⟨"good.so", true, true, true, [⟨"api", "API", "Generic API"⟩]⟩] =
      (CentralRegistry.empty BuiltinAPI,
        some "failed to find Register function in bad.so") :=
  ⟨by decide,
    loadAll_fail_fast_amended.1 _ _ _ _ _ (by decide)⟩

/-- C6, counterexample: with `limit = -1` and `offset = 0` on an empty
store (where `offset ≥ N` holds, since N = 0), the pagination guard does
not fire and the slice expression `result[0:-1]` panics instead of
returning an empty sequence. -/
theorem listPaginated_negative_limit_boundary_cex :
    MemoryStorage.listPaginated ⟨[]⟩ (-1) 0 = none ∧
    ((MemoryStorage.list ⟨[]⟩).length : Int) ≤ 0 :=
  ⟨by decide, by decide⟩

/-- C6, amended: provided `limit` and `offset` are nonnegative and their
sum does not overflow int64, ListPaginated returns (without error or
panic) the slice of the non-deleted entries starting at `offset` with at
most `limit` items, and in particular the empty sequence whenever
`offset` is at least the number of non-deleted entries; with a negative
argument, or an `offset + limit` that wraps past the int64 maximum, the
slice expression can panic instead. -/
theorem listPaginated_boundary_amended (ms : MemoryStorage)
    (limit offset : Int) (h1 : 0 ≤ limit) (h2 : 0 ≤ offset)
    (h3 : offset + limit < 9223372036854775808) :
    MemoryStorage.listPaginated ms limit offset =
      some (((MemoryStorage.list ms).drop offset.toNat).take limit.toNat) ∧
    ((MemoryStorage.list ms).length ≤ offset.toNat →
      MemoryStorage.listPaginated ms limit offset = some []) := by
  refine ⟨listPaginated_eq_drop_take ms limit offset h1 h2 h3, fun hle => ?_⟩
  rw [listPaginated_eq_drop_take ms limit offset h1 h2 h3,
    List.drop_eq_nil_of_le hle, List.take_nil]

/-- C6, witness for the amended theorem: pagination at the exact boundary
of a concrete one-item store returns the empty sequence. -/
theorem listPaginated_boundary_amended_witness :
    (0 : Int) ≤ 2 ∧ (0 : Int) ≤ 1 ∧
    (1 : Int) + 2 < 9223372036854775808 ∧
    MemoryStorage.listPaginated
        ⟨[("a", ⟨"a", "T", "n", [], 0, 0, 1, false⟩)]⟩ 2 1 = some [] :=
  ⟨by decide, by decide, by decide,
    ((listPaginated_boundary_amended
        ⟨[("a", ⟨"a", "T", "n", [], 0, 0, 1, false⟩)]⟩ 2 1
        (by decide) (by decide) (by decide)).2 (by decide))⟩

/-- C7, counterexample: UpdateItem does not fail NotFound on a
soft-deleted entry. After creating `a` (version 1) and soft-deleting it
at time 2, the tombstone is still Updated: the call returns ok with the
name replaced and the version bumped to 2, the deleted flag still set. -/
theorem updateItem_updates_soft_deleted_cex :
    mapGet ((MemoryStorage.deleteItem
        (MemoryStorage.createItem ⟨[]⟩
          ⟨"a", "T", "n", [], 0, 0, 0, false⟩).2 "a" 2).2).items "a" =
      some ⟨"a", "T", "n", [], 0, 2, 1, true⟩ ∧
    (MemoryStorage.updateItem
        (MemoryStorage.deleteItem
          (MemoryStorage.createItem ⟨[]⟩
            ⟨"a", "T", "n", [], 0, 0, 0, false⟩).2 "a" 2).2
        ⟨"a", "T", "n2", [], 0, 0, 7, false⟩).1 =
      Except.ok ⟨"a", "T", "n2", [], 0, 2, 2, true⟩ :=
  ⟨by decide, by decide⟩

/-- C7, amended: UpdateItem fails NotFound exactly when the id is absent
from the underlying map, leaving the store unchanged; when the id is
present — live or soft-deleted alike — it succeeds, replacing name and
metadata and incrementing the version by one while keeping the deleted
flag. -/
theorem updateItem_error_contract_amended (ms : MemoryStorage) (item : Item) :
    (mapGet ms.items item.id = none →
      MemoryStorage.updateItem ms item = (Except.error "item not found", ms)) ∧
    (∀ ex, mapGet ms.items item.id = some ex →
      ∃ it', MemoryStorage.updateItem ms item =
          (Except.ok it', ⟨mapSet ms.items item.id it'⟩) ∧
        it'.version = ex.version + 1 ∧ it'.name = item.name ∧
        it'.metadata = item.metadata ∧ it'.deleted = ex.deleted ∧
        mapGet ((MemoryStorage.updateItem ms item).2).items item.id =
          some it') := by
  constructor
  · intro hm
    simp only [MemoryStorage.updateItem, hm]
  · intro ex hm
    refine ⟨{ ex with
                name := item.name,
                metadata := item.metadata,
                version := ex.version + 1 }, ?_, rfl, rfl, rfl, rfl, ?_⟩
    · simp only [MemoryStorage.updateItem, hm]
    · simp only [MemoryStorage.updateItem, hm]
      exact mapGet_mapSet_self _ _ _

/-- C7, witness for the amended theorem: UpdateItem on a concrete store
with a live entry, and the not-found case on the empty store. -/
theorem updateItem_error_contract_amended_witness :
    mapGet (⟨[("a", ⟨"a", "T", "n", [], 0, 0, 3, false⟩)]⟩ :
        MemoryStorage).items
      (Item.id ⟨"a", "T", "n2", [("k", "v")], 0, 0, 0, false⟩) =
      some ⟨"a", "T", "n", [], 0, 0, 3, false⟩ ∧
    (∃ it', MemoryStorage.updateItem
        ⟨[("a", ⟨"a", "T", "n", [], 0, 0, 3, false⟩)]⟩
        ⟨"a", "T", "n2", [("k", "v")], 0, 0, 0, false⟩ =
        (Except.ok it',
          ⟨mapSet (⟨[("a", ⟨"a", "T", "n", [], 0, 0, 3, false⟩)]⟩ :
            MemoryStorage).items
            (Item.id ⟨"a", "T", "n2", [("k", "v")], 0, 0, 0, false⟩) it'⟩) ∧
      it'.version = Item.version ⟨"a", "T", "n", [], 0, 0, 3, false⟩ + 1 ∧
      it'.name = Item.name ⟨"a", "T", "n2", [("k", "v")], 0, 0, 0, false⟩ ∧
      it'.metadata =
        Item.metadata ⟨"a", "T", "n2", [("k", "v")], 0, 0, 0, false⟩ ∧
      it'.deleted = Item.deleted ⟨"a", "T", "n", [], 0, 0, 3, false⟩ ∧
      mapGet ((MemoryStorage.updateItem
          ⟨[("a", ⟨"a", "T", "n", [], 0, 0, 3, false⟩)]⟩
          ⟨"a", "T", "n2", [("k", "v")], 0, 0, 0, false⟩).2).items
        (Item.id ⟨"a", "T", "n2", [("k", "v")], 0, 0, 0, false⟩) = some it') :=
  ⟨by decide,
    (updateItem_error_contract_amended
      ⟨[("a", ⟨"a", "T", "n", [], 0, 0, 3, false⟩)]⟩
      ⟨"a", "T", "n2", [("k", "v")], 0, 0, 0, false⟩).2
      ⟨"a", "T", "n", [], 0, 0, 3, false⟩ (by decide)⟩

/-- C10, counterexample: nonnegativity of `limit` and `offset` alone does
not make ListPaginated return normally. With
`limit = 9223372036854775807` (the int64 maximum) and `offset = 1` on a
store with one live entry, Go computes `end = offset + limit`, which
wraps to the int64 minimum; being negative it escapes the
`end > len(result)` clamp, and the slice `result[1:end]` panics
(modelled as `none`) — despite `0 ≤ limit` and `0 ≤ offset`. -/
theorem listPaginated_overflow_cex :
    MemoryStorage.listPaginated
        ⟨[("a", ⟨"a", "T", "n", [], 0, 0, 1, false⟩)]⟩
        9223372036854775807 1 = none ∧
    (0 : Int) ≤ 9223372036854775807 ∧ (0 : Int) ≤ 1 :=
  ⟨by decide, by decide, by decide⟩

/-- C10, amended: for nonnegative `limit` and `offset` whose sum stays
below the int64 overflow threshold, ListPaginated returns normally (no
panic or out-of-range access) a slice of length
`min limit (max 0 (N - offset))` over the N non-deleted entries. All
three preconditions are necessary: the boundary guard checks only
`offset > N`, so a negative `limit` or `offset` makes the slice bounds
invalid, and an overflowing `offset + limit` wraps negative and panics
as well; the failing inputs below are modelled as `none`. -/
theorem listPaginated_length_safety :
    (∀ (ms : MemoryStorage) (limit offset : Int), 0 ≤ limit → 0 ≤ offset →
      offset + limit < 9223372036854775808 →
      ∃ l, MemoryStorage.listPaginated ms limit offset = some l ∧
        (l.length : Int) =
          min limit (max 0 (((MemoryStorage.list ms).length : Int) - offset))) ∧
    MemoryStorage.listPaginated
      ⟨[("a", ⟨"a", "T", "n", [], 0, 0, 1, false⟩)]⟩ (-1) 1 = none ∧
    MemoryStorage.listPaginated
      ⟨[("a", ⟨"a", "T", "n", [], 0, 0, 1, false⟩)]⟩ 1 (-1) = none := by
  refine ⟨?_, by decide, by decide⟩
  intro ms limit offset h1 h2 h3
  refine ⟨_, listPaginated_eq_drop_take ms limit offset h1 h2 h3, ?_⟩
  rw [List.length_take, List.length_drop]
  omega

/-- C10, witness: the length formula at a concrete store and arguments. -/
theorem listPaginated_length_safety_witness :
    (0 : Int) ≤ 5 ∧ (0 : Int) ≤ 0 ∧
    (0 : Int) + 5 < 9223372036854775808 ∧
    (∃ l, MemoryStorage.listPaginated
        ⟨[("a", ⟨"a", "T", "n", [], 0, 0, 1, false⟩)]⟩ 5 0 = some l ∧
      (l.length : Int) =
        min 5 (max 0 (((MemoryStorage.list
          ⟨[("a", ⟨"a", "T", "n", [], 0, 0, 1, false⟩)]⟩).length : Int) - 0))) :=
  ⟨by decide, by decide, by decide,
    listPaginated_length_safety.1
      ⟨[("a", ⟨"a", "T", "n", [], 0, 0, 1, false⟩)]⟩ 5 0
      (by decide) (by decide) (by decide)⟩
